import Mathlib

/-!
Verification model of the Hearthlink-CORE runtime (gg_core.h).

The repository ships the C API header `src/core-runtime/include/gg_core.h`,
which declares the error taxonomy, configuration struct, size constants and
the FFI surface (sessions, model registry, inference dispatch, streaming).
The function bodies are not part of the repository snapshot, so each
operation below is a shallow embedding modelled from the specification's
contracts, while the enums, constants and struct layouts are translated
directly from the header.
-/

namespace GGCore

/-- Error codes for FFI functions, translated from `CoreErrorCode` in gg_core.h. -/
inductive CoreErrorCode where
  | Ok
  | NullPointer
  | InvalidConfig
  | AuthFailed
  | SessionExpired
  | SessionNotFound
  | RateLimited
  | ModelNotFound
  | ModelLoadFailed
  | InferenceFailed
  | ContextExceeded
  | InvalidParams
  | QueueFull
  | ShuttingDown
  | Timeout
  | Cancelled
  | Internal
  deriving DecidableEq, Repr

/-- Maximum text input size in bytes (64KB), from gg_core.h. -/
def MAX_TEXT_BYTES : Nat := 65536

/-- Maximum token count per input, from gg_core.h. -/
def MAX_INPUT_TOKENS : Nat := 4096

/-- Runtime configuration, translated from `CoreConfig` in gg_core.h
(base_path and auth_token are boundary strings, not needed by the model). -/
structure CoreConfig where
  session_timeout_secs : Nat
  max_context_length : Nat
  max_queue_depth : Nat
  shutdown_timeout_secs : Nat
  deriving DecidableEq, Repr

/-- Modelled from the spec: `core_config_default` (body not in the snapshot)
fills the configuration with the documented defaults: session timeout 3600s,
max context length 4096 tokens, max queue depth 1000, shutdown timeout 30s. -/
def core_config_default : CoreConfig :=
  { session_timeout_secs := 3600
    max_context_length := 4096
    max_queue_depth := 1000
    shutdown_timeout_secs := 30 }

/-- An authenticated caller's session: identifier, creation time, fixed
expiry time (creation + configured timeout). Times are abstract seconds. -/
structure Session where
  sid : String
  created : Nat
  expiry : Nat
  deriving DecidableEq, Repr

/-- The Session Manager's table of live sessions. -/
structure SessionTable where
  sessions : List Session
  deriving DecidableEq, Repr

/-- Look a session up by its string identifier. -/
def sessionLookup (tbl : SessionTable) (sid : String) : Option Session :=
  tbl.sessions.find? (fun s => s.sid = sid)

/-- Modelled from the spec: `core_authenticate` (body not in the snapshot)
validates the presented token against the configured secret; on success it
creates a new session with expiry = now + configured session timeout and
returns it; on mismatch it fails with AuthFailed. `fresh` is the identifier
allocated for the new session. -/
def core_authenticate (cfg : CoreConfig) (secret : String) (tbl : SessionTable)
    (token : String) (now : Nat) (fresh : String) :
    SessionTable × Except CoreErrorCode Session :=
  if token = secret then
    let s : Session := { sid := fresh, created := now, expiry := now + cfg.session_timeout_secs }
    ({ sessions := tbl.sessions ++ [s] }, Except.ok s)
  else
    (tbl, Except.error CoreErrorCode.AuthFailed)

/-- Modelled from the spec: `core_session_validate` (body not in the snapshot)
checks the session still exists and has not passed its fixed expiry; it does
not extend the expiry (no sliding window) and does not mutate the table. -/
def core_session_validate (tbl : SessionTable) (sid : String) (now : Nat) :
    SessionTable × CoreErrorCode :=
  match sessionLookup tbl sid with
  | none => (tbl, CoreErrorCode.SessionNotFound)
  | some s =>
      if now ≤ s.expiry then (tbl, CoreErrorCode.Ok)
      else (tbl, CoreErrorCode.SessionExpired)

/-- Load state of a model handle: Loading → Ready → Unloading → Unloaded. -/
inductive LoadState where
  | Loading
  | Ready
  | Unloading
  | Unloaded
  deriving DecidableEq, Repr

/-- One loaded model: numeric handle id, source path, load state, and the
reference count of in-flight inferences. -/
structure ModelHandle where
  handle_id : Nat
  path : String
  load_state : LoadState
  refcount : Nat
  deriving DecidableEq, Repr

/-- The Model Registry: the table of handles and the monotone id allocator. -/
structure Registry where
  models : List ModelHandle
  next_id : Nat
  deriving DecidableEq, Repr

/-- Look a handle up by its numeric id. -/
def modelLookup (reg : Registry) (id : Nat) : Option ModelHandle :=
  reg.models.find? (fun h => h.handle_id = id)

/-- The load state of the handle with the given id, if present. -/
def stateOf (reg : Registry) (id : Nat) : Option LoadState :=
  (modelLookup reg id).map (fun h => h.load_state)

/-- The in-flight reference count of the handle with the given id, if present. -/
def refcountOf (reg : Registry) (id : Nat) : Option Nat :=
  (modelLookup reg id).map (fun h => h.refcount)

/-- Apply `f` to every handle whose id matches. -/
def updateHandle (reg : Registry) (id : Nat) (f : ModelHandle → ModelHandle) : Registry :=
  { reg with models := reg.models.map (fun h => if h.handle_id = id then f h else h) }

/-- Set the load state of the handle with the given id. -/
def setLoadState (reg : Registry) (id : Nat) (s : LoadState) : Registry :=
  updateHandle reg id (fun h => { h with load_state := s })

/-- Increment the in-flight reference count of the handle with the given id. -/
def incRef (reg : Registry) (id : Nat) : Registry :=
  updateHandle reg id (fun h => { h with refcount := h.refcount + 1 })

/-- Decrement the in-flight reference count of the handle with the given id. -/
def decRef (reg : Registry) (id : Nat) : Registry :=
  updateHandle reg id (fun h => { h with refcount := h.refcount - 1 })

/-- Remove the handle with the given id from the table. -/
def removeHandle (reg : Registry) (id : Nat) : Registry :=
  { reg with models := reg.models.filter (fun h => ¬ h.handle_id = id) }

/-- Modelled from the spec: the first phase of `core_model_load` (body not in
the snapshot) allocates a fresh ModelHandle in state Loading under the next
monotone id, and advances the allocator. Returns the new id. -/
def load_begin (reg : Registry) (path : String) : Registry × Nat :=
  ({ models := reg.models ++
        [{ handle_id := reg.next_id, path := path, load_state := LoadState.Loading, refcount := 0 }]
     next_id := reg.next_id + 1 }, reg.next_id)

/-- Modelled from the spec: the second phase of `core_model_load` transitions
the Loading handle to Ready when the external engine materialises the model,
and removes the handle when the engine fails. -/
def load_finish (reg : Registry) (id : Nat) (engineOk : Bool) : Registry :=
  match stateOf reg id with
  | some LoadState.Loading =>
      if engineOk then setLoadState reg id LoadState.Ready
      else removeHandle reg id
  | _ => reg

/-- Modelled from the spec: `core_model_load` (body not in the snapshot) is
the atomic composition of the two phases; it returns the new handle id on
success and ModelLoadFailed when the engine rejects the model. `engineOk`
abstracts the external model-execution engine's outcome. -/
def core_model_load (reg : Registry) (path : String) (engineOk : Bool) :
    Registry × Except CoreErrorCode Nat :=
  let p := load_begin reg path
  (load_finish p.1 p.2 engineOk,
   if engineOk then Except.ok p.2 else Except.error CoreErrorCode.ModelLoadFailed)

/-- Modelled from the spec: `core_model_unload` (body not in the snapshot)
atomically flips Ready→Unloading, preventing new admissions; an absent id
fails with ModelNotFound, and a handle already Loading/Unloading/Unloaded is
rejected with the same ModelNotFound semantics. -/
def core_model_unload (reg : Registry) (id : Nat) : Registry × CoreErrorCode :=
  match modelLookup reg id with
  | none => (reg, CoreErrorCode.ModelNotFound)
  | some h =>
      if h.load_state = LoadState.Ready then
        (setLoadState reg id LoadState.Unloading, CoreErrorCode.Ok)
      else
        (reg, CoreErrorCode.ModelNotFound)

/-- Modelled from the spec: the drain step of unload — once the in-flight
reference count of an Unloading handle reaches zero, resources are released
and the state becomes Unloaded. -/
def drain (reg : Registry) (id : Nat) : Registry :=
  match modelLookup reg id with
  | none => reg
  | some h =>
      if h.load_state = LoadState.Unloading ∧ h.refcount = 0 then
        setLoadState reg id LoadState.Unloaded
      else reg

/-- Modelled from the spec: `core_model_list` (body not in the snapshot)
fills the caller's buffer with at most `max_count` handle ids and reports how
many entries were written. -/
def core_model_list (reg : Registry) (max_count : Nat) : List Nat × Nat :=
  let written := (reg.models.map (fun h => h.handle_id)).take max_count
  (written, written.length)

/-- The registry-level operations a caller can drive between two points in
time: the two load phases, unload, the drain step, and the dispatcher's
paired reference acquire/release. -/
inductive RegOp where
  | loadBegin (path : String)
  | loadFinish (id : Nat) (engineOk : Bool)
  | unload (id : Nat)
  | drainStep (id : Nat)
  | acquire (id : Nat)
  | release (id : Nat)

/-- One registry operation's effect on the registry. -/
def regStep (op : RegOp) (reg : Registry) : Registry :=
  match op with
  | RegOp.loadBegin p => (load_begin reg p).1
  | RegOp.loadFinish id ok => load_finish reg id ok
  | RegOp.unload id => (core_model_unload reg id).1
  | RegOp.drainStep id => drain reg id
  | RegOp.acquire id => incRef reg id
  | RegOp.release id => decRef reg id

/-- Run a sequence of registry operations. -/
def execOps (ops : List RegOp) (reg : Registry) : Registry :=
  ops.foldl (fun r op => regStep op r) reg

/-- The legal load-state transitions of the spec's transition table. -/
def legalTransition (s t : LoadState) : Prop :=
  (s = LoadState.Loading ∧ t = LoadState.Ready) ∨
  (s = LoadState.Ready ∧ t = LoadState.Unloading) ∨
  (s = LoadState.Unloading ∧ t = LoadState.Unloaded)

/-- Inference parameters, translated from `CoreInferenceParams` in gg_core.h
(temperature and top_p are sampling reals, carried as rationals; timeout_ms
of 0 means no timeout per the header comment). -/
structure CoreInferenceParams where
  max_tokens : Nat
  temperature : Rat
  top_p : Rat
  top_k : Nat
  stream : Bool
  timeout_ms : Nat
  deriving DecidableEq, Repr

/-- Inference result, translated from `CoreInferenceResult` in gg_core.h. -/
structure CoreInferenceResult where
  output_text : String
  tokens_generated : Nat
  finished : Bool
  deriving DecidableEq, Repr

/-- The external engine's reply to one blocking generate call: either a
generated text with token count and finished flag, or an engine failure. -/
inductive EngineReply where
  | success (text : String) (tokens : Nat) (finished : Bool)
  | failure
  deriving DecidableEq, Repr

/-- One abstract run of the external engine: how long the call would take and
what it would reply. The dispatcher compares the duration to its deadline. -/
structure EngineRun where
  duration_ms : Nat
  reply : EngineReply
  deriving DecidableEq, Repr

/-- The whole runtime's state: configuration, session table, model registry,
current dispatcher queue depth, and the current time in seconds. -/
structure RuntimeState where
  config : CoreConfig
  sessions : SessionTable
  registry : Registry
  queue_depth : Nat
  now : Nat
  deriving DecidableEq, Repr

/-- The caller-imposed deadline: timeout_ms = 0 means no timeout, per the
header comment on `CoreInferenceParams.timeout_ms`. -/
def effectiveDeadline (timeout_ms : Nat) : Option Nat :=
  if timeout_ms = 0 then none else some timeout_ms

/-- Whether an engine call of the given duration would overrun the deadline. -/
def deadlineExpired : Option Nat → Nat → Bool
  | none, _ => false
  | some d, dur => decide (d < dur)

/-- Release the queue slot and the model reference taken during admission,
pairing the acquire on every outcome. -/
def finishInfer (st : RuntimeState) (mid : Nat)
    (r : Except CoreErrorCode CoreInferenceResult) :
    RuntimeState × Except CoreErrorCode CoreInferenceResult :=
  ({ st with registry := decRef st.registry mid, queue_depth := st.queue_depth - 1 }, r)

/-- Modelled from the spec: `core_infer_with_timeout` (body not in the
snapshot) follows the dispatcher contract step by step: validate the session;
resolve the model handle in Ready state and increment its reference count;
admission check against the configured queue depth (QueueFull); validate
prompt byte size and derived token count (ContextExceeded); run the engine
under the caller's deadline (Timeout on overrun, InferenceFailed on engine
error); and decrement the reference count on every outcome. `promptBytes` and
`promptTokens` are the prompt's byte size and derived token count, and `eng`
abstracts the external engine call. -/
def core_infer_with_timeout (st : RuntimeState) (sid : String) (mid : Nat)
    (promptBytes promptTokens : Nat) (timeout_ms : Nat) (eng : EngineRun) :
    RuntimeState × Except CoreErrorCode CoreInferenceResult :=
  let vcode := (core_session_validate st.sessions sid st.now).2
  if vcode ≠ CoreErrorCode.Ok then (st, Except.error vcode)
  else
    match modelLookup st.registry mid with
    | none => (st, Except.error CoreErrorCode.ModelNotFound)
    | some h =>
        if h.load_state ≠ LoadState.Ready then (st, Except.error CoreErrorCode.ModelNotFound)
        else
          let st1 := { st with registry := incRef st.registry mid }
          if st1.queue_depth ≥ st1.config.max_queue_depth then
            ({ st1 with registry := decRef st1.registry mid },
             Except.error CoreErrorCode.QueueFull)
          else
            let st2 := { st1 with queue_depth := st1.queue_depth + 1 }
            if promptBytes > MAX_TEXT_BYTES ∨ promptTokens > MAX_INPUT_TOKENS then
              finishInfer st2 mid (Except.error CoreErrorCode.ContextExceeded)
            else
              if deadlineExpired (effectiveDeadline timeout_ms) eng.duration_ms then
                finishInfer st2 mid (Except.error CoreErrorCode.Timeout)
              else
                match eng.reply with
                | EngineReply.failure =>
                    finishInfer st2 mid (Except.error CoreErrorCode.InferenceFailed)
                | EngineReply.success t k f =>
                    finishInfer st2 mid
                      (Except.ok { output_text := t, tokens_generated := k, finished := f })

/-- Modelled from the spec: `core_infer` (body not in the snapshot) is the
same contract with the request's own params.timeout_ms as the deadline. -/
def core_infer (st : RuntimeState) (sid : String) (mid : Nat)
    (promptBytes promptTokens : Nat) (params : CoreInferenceParams) (eng : EngineRun) :
    RuntimeState × Except CoreErrorCode CoreInferenceResult :=
  core_infer_with_timeout st sid mid promptBytes promptTokens params.timeout_ms eng

/-- One invocation of the caller's stream callback, translated from
`CoreStreamCallback` in gg_core.h: the chunk text (none on the terminating
call), the is_final flag, and the error surfaced on the terminating call. -/
structure CbCall where
  text : Option String
  is_final : Bool
  err : Option CoreErrorCode
  deriving DecidableEq, Repr

/-- A non-final callback invocation delivering one text chunk. -/
def chunkCall (c : String) : CbCall :=
  { text := some c, is_final := false, err := none }

/-- The single terminating callback invocation, carrying the stream's
outcome: none for normal completion, some code for error or cancellation. -/
def finalCall (e : Option CoreErrorCode) : CbCall :=
  { text := none, is_final := true, err := e }

/-- What the external engine would emit on one streaming call: the chunk
sequence and an optional terminal engine error. -/
structure EngineStream where
  chunks : List String
  terminalError : Option CoreErrorCode
  deriving DecidableEq, Repr

/-- Modelled from the spec: the dispatcher's chunk delivery loop. Each chunk
is handed to the callback; a callback returning false is a cooperative
cancellation signal, after which no further chunks are delivered and a single
final invocation indicating cancellation terminates the stream. When every
chunk is delivered, the final invocation reports completion or the engine's
terminal error. -/
def streamDeliver (cb : String → Bool) (engErr : Option CoreErrorCode) :
    List String → List CbCall
  | [] => [finalCall engErr]
  | c :: rest =>
      if cb c then chunkCall c :: streamDeliver cb engErr rest
      else [chunkCall c, finalCall (some CoreErrorCode.Cancelled)]

/-- Whether the callback cancels the stream at some delivered chunk. -/
def wasCancelled (cb : String → Bool) : List String → Bool
  | [] => false
  | c :: rest => if cb c then wasCancelled cb rest else true

/-- Modelled from the spec: `core_infer_streaming` (body not in the snapshot)
performs the same validation, admission and reference counting as blocking
inference, then drives the chunk delivery loop; the returned list is the
sequence of callback invocations the caller observes. -/
def core_infer_streaming (st : RuntimeState) (sid : String) (mid : Nat)
    (promptBytes promptTokens : Nat) (cb : String → Bool) (eng : EngineStream) :
    RuntimeState × CoreErrorCode × List CbCall :=
  let vcode := (core_session_validate st.sessions sid st.now).2
  if vcode ≠ CoreErrorCode.Ok then (st, vcode, [])
  else
    match modelLookup st.registry mid with
    | none => (st, CoreErrorCode.ModelNotFound, [])
    | some h =>
        if h.load_state ≠ LoadState.Ready then (st, CoreErrorCode.ModelNotFound, [])
        else
          let st1 := { st with registry := incRef st.registry mid }
          if st1.queue_depth ≥ st1.config.max_queue_depth then
            ({ st1 with registry := decRef st1.registry mid }, CoreErrorCode.QueueFull, [])
          else
            let st2 := { st1 with queue_depth := st1.queue_depth + 1 }
            if promptBytes > MAX_TEXT_BYTES ∨ promptTokens > MAX_INPUT_TOKENS then
              ({ st2 with registry := decRef st2.registry mid,
                          queue_depth := st2.queue_depth - 1 },
               CoreErrorCode.ContextExceeded, [])
            else
              let calls := streamDeliver cb eng.terminalError eng.chunks
              let rcode :=
                if wasCancelled cb eng.chunks then CoreErrorCode.Cancelled
                else match eng.terminalError with
                  | some e => e
                  | none => CoreErrorCode.Ok
              ({ st2 with registry := decRef st2.registry mid,
                          queue_depth := st2.queue_depth - 1 },
               rcode, calls)

/-! Infrastructure lemmas about lookups under the registry's update shapes. -/

theorem find?_map_id_preserving (l : List ModelHandle) (g : ModelHandle → ModelHandle)
    (hg : ∀ h, (g h).handle_id = h.handle_id) (i : Nat) :
    (l.map g).find? (fun h => h.handle_id = i) =
      ((l.find? (fun h => h.handle_id = i)).map g) := by
  induction l with
  | nil => rfl
  | cons a t ih =>
      by_cases hi : a.handle_id = i
      · simp [List.find?, hg, hi]
      · simp [List.find?, hg, hi, ih]

theorem modelLookup_updateHandle (reg : Registry) (n : Nat) (f : ModelHandle → ModelHandle)
    (hf : ∀ h, (f h).handle_id = h.handle_id) (i : Nat) :
    modelLookup (updateHandle reg n f) i =
      (modelLookup reg i).map (fun h => if h.handle_id = n then f h else h) := by
  unfold modelLookup updateHandle
  exact find?_map_id_preserving reg.models _ (fun h => by by_cases hn : h.handle_id = n <;> simp [hn, hf]) i

theorem modelLookup_some_id {reg : Registry} {i : Nat} {h : ModelHandle}
    (hl : modelLookup reg i = some h) : h.handle_id = i := by
  have := List.find?_some hl
  simpa using this

theorem stateOf_setLoadState_same (reg : Registry) (n : Nat) (s : LoadState) :
    stateOf (setLoadState reg n s) n = (stateOf reg n).map (fun _ => s) := by
  unfold stateOf setLoadState
  rw [modelLookup_updateHandle reg n (fun h => { h with load_state := s }) (fun h => rfl)]
  cases hl : modelLookup reg n with
  | none => rfl
  | some h => simp [modelLookup_some_id hl]

theorem stateOf_setLoadState_ne (reg : Registry) (n : Nat) (s : LoadState) (i : Nat)
    (hne : i ≠ n) : stateOf (setLoadState reg n s) i = stateOf reg i := by
  unfold stateOf setLoadState
  rw [modelLookup_updateHandle reg n (fun h => { h with load_state := s }) (fun h => rfl)]
  cases hl : modelLookup reg i with
  | none => rfl
  | some h =>
      have hid := modelLookup_some_id hl
      simp [hid, hne]

theorem stateOf_incRef (reg : Registry) (n i : Nat) :
    stateOf (incRef reg n) i = stateOf reg i := by
  unfold stateOf incRef
  rw [modelLookup_updateHandle reg n (fun h => { h with refcount := h.refcount + 1 }) (fun h => rfl)]
  cases hl : modelLookup reg i with
  | none => rfl
  | some h => by_cases hn : h.handle_id = n <;> simp [hn]

theorem stateOf_decRef (reg : Registry) (n i : Nat) :
    stateOf (decRef reg n) i = stateOf reg i := by
  unfold stateOf decRef
  rw [modelLookup_updateHandle reg n (fun h => { h with refcount := h.refcount - 1 }) (fun h => rfl)]
  cases hl : modelLookup reg i with
  | none => rfl
  | some h => by_cases hn : h.handle_id = n <;> simp [hn]

theorem refcountOf_setLoadState (reg : Registry) (n : Nat) (s : LoadState) (i : Nat) :
    refcountOf (setLoadState reg n s) i = refcountOf reg i := by
  unfold refcountOf setLoadState
  rw [modelLookup_updateHandle reg n (fun h => { h with load_state := s }) (fun h => rfl)]
  cases hl : modelLookup reg i with
  | none => rfl
  | some h => by_cases hn : h.handle_id = n <;> simp [hn]

theorem dec_inc_list (l : List ModelHandle) (n : Nat) :
    (l.map (fun h => if h.handle_id = n then { h with refcount := h.refcount + 1 } else h)).map
      (fun h => if h.handle_id = n then { h with refcount := h.refcount - 1 } else h) = l := by
  induction l with
  | nil => rfl
  | cons a t ih =>
      obtain ⟨aid, ap, als, ar⟩ := a
      by_cases hn : aid = n
      · subst hn
        simp [ih]
      · simp [hn, ih]

theorem decRef_incRef (reg : Registry) (n : Nat) : decRef (incRef reg n) n = reg := by
  unfold decRef incRef updateHandle
  dsimp only
  rw [dec_inc_list]

theorem find?_filter_of_imp_not (l : List ModelHandle) (p q : ModelHandle → Bool)
    (h : ∀ x, p x = true → q x = false) : (l.filter q).find? p = none := by
  induction l with
  | nil => rfl
  | cons a t ih =>
      by_cases hq : q a = true
      · have hp : p a = false := by
          by_cases hp : p a = true
          · rw [h a hp] at hq; exact absurd hq (by simp)
          · simpa using hp
        simp [List.filter, hq, List.find?, hp, ih]
      · simp at hq
        simp [List.filter, hq, ih]

theorem find?_filter_of_imp (l : List ModelHandle) (p q : ModelHandle → Bool)
    (h : ∀ x, p x = true → q x = true) : (l.filter q).find? p = l.find? p := by
  induction l with
  | nil => rfl
  | cons a t ih =>
      by_cases hp : p a = true
      · simp [List.filter, h a hp, List.find?, hp]
      · have hp' : p a = false := by simpa using hp
        by_cases hq : q a = true
        · simp [List.filter, hq, List.find?, hp', ih]
        · have hq' : q a = false := by simpa using hq
          simp [List.filter, hq', List.find?, hp', ih]

theorem modelLookup_removeHandle_same (reg : Registry) (n : Nat) :
    modelLookup (removeHandle reg n) n = none := by
  unfold modelLookup removeHandle
  apply find?_filter_of_imp_not
  intro x hx
  simp at hx
  simp [hx]

theorem modelLookup_removeHandle_ne (reg : Registry) (n i : Nat) (hne : i ≠ n) :
    modelLookup (removeHandle reg n) i = modelLookup reg i := by
  unfold modelLookup removeHandle
  apply find?_filter_of_imp
  intro x hx
  simp at hx
  simp [hx, hne]

theorem find?_append_none {α : Type} (l1 l2 : List α) (p : α → Bool)
    (h : l1.find? p = none) : (l1 ++ l2).find? p = l2.find? p := by
  induction l1 with
  | nil => rfl
  | cons a t ih =>
      rw [List.find?] at h
      cases hp : p a with
      | true => rw [hp] at h; exact absurd h (by simp)
      | false =>
          rw [hp] at h
          simp only [List.cons_append, List.find?, hp]
          exact ih h

theorem find?_append_some {α : Type} (l1 l2 : List α) (p : α → Bool) {a : α}
    (h : l1.find? p = some a) : (l1 ++ l2).find? p = some a := by
  induction l1 with
  | nil => simp [List.find?] at h
  | cons b t ih =>
      rw [List.find?] at h
      cases hp : p b with
      | true =>
          rw [hp] at h
          simp only [List.cons_append, List.find?, hp]
          exact h
      | false =>
          rw [hp] at h
          simp only [List.cons_append, List.find?, hp]
          exact ih h

theorem infer_with_timeout_registry (st : RuntimeState) (sid : String) (mid : Nat)
    (pb pt tmo : Nat) (eng : EngineRun) :
    (core_infer_with_timeout st sid mid pb pt tmo eng).1.registry = st.registry := by
  unfold core_infer_with_timeout finishInfer
  dsimp only
  split
  · rfl
  · split
    · rfl
    · split
      · rfl
      · split
        · dsimp only
          rw [decRef_incRef]
        · split
          · dsimp only
            rw [decRef_incRef]
          · split
            · dsimp only
              rw [decRef_incRef]
            · split
              · dsimp only
                rw [decRef_incRef]
              · dsimp only
                rw [decRef_incRef]

theorem infer_streaming_registry (st : RuntimeState) (sid : String) (mid : Nat)
    (pb pt : Nat) (cb : String → Bool) (eng : EngineStream) :
    (core_infer_streaming st sid mid pb pt cb eng).1.registry = st.registry := by
  unfold core_infer_streaming
  dsimp only
  split
  · rfl
  · split
    · rfl
    · split
      · rfl
      · split
        · dsimp only
          rw [decRef_incRef]
        · split
          · dsimp only
            rw [decRef_incRef]
          · dsimp only
            rw [decRef_incRef]

/-- C1: every inference call — blocking, timeout-bounded, and streaming —
leaves every model handle's in-flight reference count exactly as it was
before the call, on every outcome (success, engine error, timeout, and every
admission failure): the acquire is paired with a release on all paths. -/
theorem infer_refcount_balanced (st : RuntimeState) (sid : String) (mid : Nat)
    (pb pt tmo : Nat) (params : CoreInferenceParams) (eng : EngineRun)
    (cb : String → Bool) (es : EngineStream) (i : Nat) :
    refcountOf (core_infer st sid mid pb pt params eng).1.registry i = refcountOf st.registry i ∧
    refcountOf (core_infer_with_timeout st sid mid pb pt tmo eng).1.registry i =
      refcountOf st.registry i ∧
    refcountOf (core_infer_streaming st sid mid pb pt cb es).1.registry i =
      refcountOf st.registry i := by
  refine ⟨?_, ?_, ?_⟩
  · unfold core_infer
    rw [infer_with_timeout_registry]
  · rw [infer_with_timeout_registry]
  · rw [infer_streaming_registry]

/-- C8: `core_config_default` fills the configuration with exactly the
documented defaults: session_timeout_secs = 3600, max_context_length = 4096,
max_queue_depth = 1000, shutdown_timeout_secs = 30. -/
theorem config_default_values :
    core_config_default.session_timeout_secs = 3600 ∧
    core_config_default.max_context_length = 4096 ∧
    core_config_default.max_queue_depth = 1000 ∧
    core_config_default.shutdown_timeout_secs = 30 :=
  ⟨rfl, rfl, rfl, rfl⟩

/-- C10: `core_model_list` writes at most `max_count` handle ids into the
caller's buffer and reports exactly the number of entries written, even when
more models are loaded than the buffer can hold. -/
theorem model_list_bounded (reg : Registry) (max_count : Nat) :
    (core_model_list reg max_count).1.length ≤ max_count ∧
    (core_model_list reg max_count).2 = (core_model_list reg max_count).1.length := by
  constructor
  · unfold core_model_list
    dsimp only
    rw [List.length_take]
    exact Nat.min_le_left _ _
  · rfl

/-! Concrete fixtures used by the witness theorems. -/

/-- A Ready model under handle id 1. -/
def exampleModel : ModelHandle :=
  { handle_id := 1, path := "model.bin", load_state := LoadState.Ready, refcount := 0 }

/-- A registry holding the one Ready model. -/
def exampleRegistry : Registry :=
  { models := [exampleModel], next_id := 2 }

/-- A live session "s1" expiring at time 100. -/
def exampleSession : Session :=
  { sid := "s1", created := 0, expiry := 100 }

/-- A runtime at time 0 with one session, one Ready model, empty queue. -/
def exampleState : RuntimeState :=
  { config := core_config_default
    sessions := { sessions := [exampleSession] }
    registry := exampleRegistry
    queue_depth := 0
    now := 0 }

/-- Inference parameters with no caller-imposed timeout. -/
def exampleParams : CoreInferenceParams :=
  { max_tokens := 16, temperature := 0, top_p := 0, top_k := 1, stream := false, timeout_ms := 0 }

/-- An engine run taking 5 ms and producing two tokens. -/
def exampleEngineRun : EngineRun :=
  { duration_ms := 5, reply := EngineReply.success "hi" 2 true }

theorem validate_code_cases (tbl : SessionTable) (sid : String) (now : Nat) :
    (core_session_validate tbl sid now).2 = CoreErrorCode.Ok ∨
    (core_session_validate tbl sid now).2 = CoreErrorCode.SessionNotFound ∨
    (core_session_validate tbl sid now).2 = CoreErrorCode.SessionExpired := by
  unfold core_session_validate
  rcases hl : sessionLookup tbl sid with _ | s
  · right; left; rfl
  · dsimp only
    split
    · left; rfl
    · right; right; rfl

/-- C5: authenticating with the valid token and immediately validating the
returned session succeeds (given the issued identifier is fresh, as the
spec's never-reused-identifier invariant guarantees); a session past its
expiry fails validation with SessionExpired and leaves the table exactly as
it was, so every repetition fails the same way; and validation never mutates
the session table, hence never extends any session's expiry (fixed expiry,
no sliding window). -/
theorem session_validate_contract :
    (∀ (cfg : CoreConfig) (secret : String) (tbl : SessionTable) (now : Nat) (fresh : String),
       (∀ s ∈ tbl.sessions, s.sid ≠ fresh) →
       ∃ s, (core_authenticate cfg secret tbl secret now fresh).2 = Except.ok s ∧
         (core_session_validate (core_authenticate cfg secret tbl secret now fresh).1
            s.sid now).2 = CoreErrorCode.Ok) ∧
    (∀ (tbl : SessionTable) (sid : String) (now : Nat) (s : Session),
       sessionLookup tbl sid = some s → s.expiry < now →
       core_session_validate tbl sid now = (tbl, CoreErrorCode.SessionExpired)) ∧
    (∀ (tbl : SessionTable) (sid : String) (now : Nat),
       (core_session_validate tbl sid now).1 = tbl) := by
  refine ⟨?_, ?_, ?_⟩
  · intro cfg secret tbl now fresh hfresh
    refine ⟨{ sid := fresh, created := now, expiry := now + cfg.session_timeout_secs }, ?_, ?_⟩
    · unfold core_authenticate
      simp
    · unfold core_authenticate
      rw [if_pos rfl]
      unfold core_session_validate sessionLookup
      have hnone : tbl.sessions.find? (fun s => s.sid = fresh) = none := by
        apply List.find?_eq_none.mpr
        intro s hs
        simpa using hfresh s hs
      rw [find?_append_none _ _ _ hnone]
      simp [List.find?, Nat.le_add_right]
  · intro tbl sid now s hl hexp
    unfold core_session_validate
    rw [hl]
    have hnle : ¬ now ≤ s.expiry := by omega
    simp [hnle]
  · intro tbl sid now
    unfold core_session_validate
    rcases hl : sessionLookup tbl sid with _ | s
    · rfl
    · dsimp only
      split <;> rfl

/-- Witness for C5: in the empty table, authenticating with the secret and
validating the returned session at once succeeds. -/
theorem session_validate_contract_witness :
    ∃ s, (core_authenticate core_config_default "tok" { sessions := [] } "tok" 0 "s1").2 =
        Except.ok s ∧
      (core_session_validate
        (core_authenticate core_config_default "tok" { sessions := [] } "tok" 0 "s1").1
        s.sid 0).2 = CoreErrorCode.Ok :=
  session_validate_contract.1 core_config_default "tok" { sessions := [] } 0 "s1"
    (by intro s hs; simp at hs)

/-- C9: a request whose timeout is 0 carries no caller-imposed deadline —
the dispatcher never fails it with Timeout, whatever the engine's duration;
this holds for the explicit-timeout entry point and for `core_infer` reading
params.timeout_ms. -/
theorem zero_timeout_not_timeout :
    (∀ (st : RuntimeState) (sid : String) (mid pb pt : Nat) (eng : EngineRun),
       (core_infer_with_timeout st sid mid pb pt 0 eng).2 ≠
         Except.error CoreErrorCode.Timeout) ∧
    (∀ (st : RuntimeState) (sid : String) (mid pb pt : Nat)
       (params : CoreInferenceParams) (eng : EngineRun), params.timeout_ms = 0 →
       (core_infer st sid mid pb pt params eng).2 ≠
         Except.error CoreErrorCode.Timeout) := by
  have h1 : ∀ (st : RuntimeState) (sid : String) (mid pb pt : Nat) (eng : EngineRun),
      (core_infer_with_timeout st sid mid pb pt 0 eng).2 ≠
        Except.error CoreErrorCode.Timeout := by
    intro st sid mid pb pt eng
    unfold core_infer_with_timeout finishInfer
    dsimp only
    split
    · rename_i hv
      intro hcontra
      have hcode := congrArg (fun r : Except CoreErrorCode CoreInferenceResult =>
        match r with
        | Except.error c => c
        | Except.ok _ => CoreErrorCode.Ok) hcontra
      dsimp at hcode
      rcases validate_code_cases st.sessions sid st.now with h | h | h <;>
        rw [h] at hcode <;> exact absurd hcode (by decide)
    · split
      · simp
      · split
        · simp
        · split
          · simp
          · split
            · simp
            · split
              · rename_i hdl
                simp [effectiveDeadline, deadlineExpired] at hdl
              · split <;> simp
  refine ⟨h1, ?_⟩
  intro st sid mid pb pt params eng hp
  unfold core_infer
  rw [hp]
  exact h1 st sid mid pb pt eng

/-- Witness for C9: with timeout 0 on the example runtime, the result is not
Timeout. -/
theorem zero_timeout_not_timeout_witness :
    (core_infer exampleState "s1" 1 10 10 exampleParams exampleEngineRun).2 ≠
      Except.error CoreErrorCode.Timeout :=
  zero_timeout_not_timeout.2 exampleState "s1" 1 10 10 exampleParams exampleEngineRun rfl

theorem modelLookup_ready_of_stateOf {reg : Registry} {mid : Nat}
    (hready : stateOf reg mid = some LoadState.Ready) :
    ∃ h, modelLookup reg mid = some h ∧ h.load_state = LoadState.Ready := by
  unfold stateOf at hready
  rcases hl : modelLookup reg mid with _ | h
  · rw [hl] at hready; exact absurd hready (by simp)
  · rw [hl] at hready
    exact ⟨h, rfl, by simpa using hready⟩

/-- C4: a request from a valid session against a Ready model is rejected
with QueueFull exactly when, at admission, the queue depth has already
reached the configured max_queue_depth; below the limit the request is never
rejected with QueueFull. -/
theorem infer_queue_full_iff (st : RuntimeState) (sid : String) (mid pb pt : Nat)
    (params : CoreInferenceParams) (eng : EngineRun)
    (hsess : (core_session_validate st.sessions sid st.now).2 = CoreErrorCode.Ok)
    (hready : stateOf st.registry mid = some LoadState.Ready) :
    (core_infer st sid mid pb pt params eng).2 = Except.error CoreErrorCode.QueueFull ↔
      st.config.max_queue_depth ≤ st.queue_depth := by
  obtain ⟨h, hl, hls⟩ := modelLookup_ready_of_stateOf hready
  unfold core_infer core_infer_with_timeout finishInfer
  dsimp only
  rw [hsess, hl]
  rw [if_neg (by simp)]
  dsimp only
  rw [if_neg (by simp [hls])]
  by_cases hq : st.queue_depth ≥ st.config.max_queue_depth
  · rw [if_pos hq]
    simpa using hq
  · rw [if_neg hq]
    constructor
    · intro hres
      split at hres
      · exact absurd hres (by simp)
      · split at hres
        · exact absurd hres (by simp)
        · split at hres <;> exact absurd hres (by simp)
    · intro hge
      exact absurd hge hq

/-- Witness for C4: on the example runtime with the queue already at the
default limit of 1000, the request is rejected with QueueFull. -/
theorem infer_queue_full_iff_witness :
    (core_infer { exampleState with queue_depth := 1000 } "s1" 1 10 10 exampleParams
        exampleEngineRun).2 = Except.error CoreErrorCode.QueueFull :=
  (infer_queue_full_iff { exampleState with queue_depth := 1000 } "s1" 1 10 10 exampleParams
    exampleEngineRun (by decide) (by decide)).mpr (by decide)

/-- C6: an admitted request (valid session, Ready model, queue below the
limit) fails with ContextExceeded exactly when the prompt's byte size exceeds
MAX_TEXT_BYTES = 65536 or its derived token count exceeds
MAX_INPUT_TOKENS = 4096; and a request within both limits never fails with
ContextExceeded on any path. -/
theorem infer_context_exceeded_iff :
    (∀ (st : RuntimeState) (sid : String) (mid pb pt : Nat)
       (params : CoreInferenceParams) (eng : EngineRun),
       (core_session_validate st.sessions sid st.now).2 = CoreErrorCode.Ok →
       stateOf st.registry mid = some LoadState.Ready →
       st.queue_depth < st.config.max_queue_depth →
       ((core_infer st sid mid pb pt params eng).2 =
           Except.error CoreErrorCode.ContextExceeded ↔
         (MAX_TEXT_BYTES < pb ∨ MAX_INPUT_TOKENS < pt))) ∧
    (∀ (st : RuntimeState) (sid : String) (mid pb pt : Nat)
       (params : CoreInferenceParams) (eng : EngineRun),
       pb ≤ MAX_TEXT_BYTES → pt ≤ MAX_INPUT_TOKENS →
       (core_infer st sid mid pb pt params eng).2 ≠
         Except.error CoreErrorCode.ContextExceeded) := by
  constructor
  · intro st sid mid pb pt params eng hsess hready hq
    obtain ⟨h, hl, hls⟩ := modelLookup_ready_of_stateOf hready
    unfold core_infer core_infer_with_timeout finishInfer
    dsimp only
    rw [hsess, hl]
    rw [if_neg (by simp)]
    dsimp only
    rw [if_neg (by simp [hls])]
    rw [if_neg (by omega)]
    by_cases hctx : MAX_TEXT_BYTES < pb ∨ MAX_INPUT_TOKENS < pt
    · rw [if_pos hctx]
      simpa using hctx
    · rw [if_neg hctx]
      constructor
      · intro hres
        split at hres
        · exact absurd hres (by simp)
        · split at hres <;> exact absurd hres (by simp)
      · intro hctx'
        exact absurd hctx' hctx
  · intro st sid mid pb pt params eng hpb hpt
    unfold core_infer core_infer_with_timeout finishInfer
    dsimp only
    split
    · rename_i hv
      intro hcontra
      have hcode := congrArg (fun r : Except CoreErrorCode CoreInferenceResult =>
        match r with
        | Except.error c => c
        | Except.ok _ => CoreErrorCode.Ok) hcontra
      dsimp at hcode
      rcases validate_code_cases st.sessions sid st.now with hc | hc | hc <;>
        rw [hc] at hcode <;> exact absurd hcode (by decide)
    · split
      · simp
      · split
        · simp
        · split
          · simp
          · split
            · rename_i hctx
              omega
            · split
              · simp
              · split <;> simp

/-- Witness for C6: a 70000-byte prompt on the example runtime is rejected
with ContextExceeded. -/
theorem infer_context_exceeded_iff_witness :
    (core_infer exampleState "s1" 1 70000 10 exampleParams exampleEngineRun).2 =
      Except.error CoreErrorCode.ContextExceeded :=
  (infer_context_exceeded_iff.1 exampleState "s1" 1 70000 10 exampleParams exampleEngineRun
    (by decide) (by decide) (by decide)).mpr (by decide)

theorem streamDeliver_cancelled (cb : String → Bool) (engErr : Option CoreErrorCode)
    (chunks : List String) (h : wasCancelled cb chunks = true) :
    ∃ (ds : List String) (c : String), streamDeliver cb engErr chunks =
        ds.map chunkCall ++ [chunkCall c, finalCall (some CoreErrorCode.Cancelled)] ∧
      (∀ d ∈ ds, cb d = true) ∧ cb c = false := by
  induction chunks with
  | nil => simp [wasCancelled] at h
  | cons a t ih =>
      by_cases ha : cb a = true
      · simp only [wasCancelled, if_pos ha] at h
        obtain ⟨ds, c, heq, hall, hc⟩ := ih h
        refine ⟨a :: ds, c, ?_, ?_, hc⟩
        · unfold streamDeliver
          rw [if_pos ha, heq]
          simp
        · intro d hd
          rcases List.mem_cons.mp hd with hd | hd
          · rw [hd]; exact ha
          · exact hall d hd
      · have ha' : cb a = false := by simpa using ha
        refine ⟨[], a, ?_, ?_, ha'⟩
        · unfold streamDeliver
          rw [if_neg (by simp [ha'])]
          simp
        · intro d hd
          simp at hd

/-- C7: in a `core_infer_streaming` call that reaches delivery (valid
session, Ready model, queue below the limit, prompt within bounds), once the
callback returns false the delivered sequence consists exactly of the chunks
for which the callback returned true, then the single chunk on which it
returned false, then one final terminating invocation marked Cancelled —
no further text chunks follow the cancellation, and the final call lets the
caller distinguish cancellation from completion or error. -/
theorem streaming_cancel_behavior (st : RuntimeState) (sid : String) (mid pb pt : Nat)
    (cb : String → Bool) (eng : EngineStream)
    (hsess : (core_session_validate st.sessions sid st.now).2 = CoreErrorCode.Ok)
    (hready : stateOf st.registry mid = some LoadState.Ready)
    (hq : st.queue_depth < st.config.max_queue_depth)
    (hpb : pb ≤ MAX_TEXT_BYTES) (hpt : pt ≤ MAX_INPUT_TOKENS)
    (hcancel : wasCancelled cb eng.chunks = true) :
    ∃ (ds : List String) (c : String), (core_infer_streaming st sid mid pb pt cb eng).2.2 =
        ds.map chunkCall ++ [chunkCall c, finalCall (some CoreErrorCode.Cancelled)] ∧
      (∀ d ∈ ds, cb d = true) ∧ cb c = false := by
  obtain ⟨h, hl, hls⟩ := modelLookup_ready_of_stateOf hready
  unfold core_infer_streaming
  dsimp only
  rw [hsess, hl]
  rw [if_neg (by simp)]
  dsimp only
  rw [if_neg (by simp [hls])]
  rw [if_neg (by omega)]
  rw [if_neg (by omega)]
  dsimp only
  exact streamDeliver_cancelled cb eng.terminalError eng.chunks hcancel

/-- Witness for C7: a callback that immediately cancels on the first chunk
yields that one chunk followed by the single Cancelled final invocation. -/
theorem streaming_cancel_behavior_witness :
    ∃ (ds : List String) (c : String), (core_infer_streaming exampleState "s1" 1 10 10
        (fun _ => false) { chunks := ["a"], terminalError := none }).2.2 =
        ds.map chunkCall ++ [chunkCall c, finalCall (some CoreErrorCode.Cancelled)] ∧
      (∀ d ∈ ds, (fun _ : String => false) d = true) ∧ (fun _ : String => false) c = false :=
  streaming_cancel_behavior exampleState "s1" 1 10 10 (fun _ => false)
    { chunks := ["a"], terminalError := none }
    (by decide) (by decide) (by decide) (by decide) (by decide) rfl

theorem stateOf_eq_of_lookup {reg : Registry} {id : Nat} {h : ModelHandle}
    (hl : modelLookup reg id = some h) : stateOf reg id = some h.load_state := by
  unfold stateOf
  rw [hl]
  rfl

theorem lookup_of_stateOf {reg : Registry} {id : Nat} {s : LoadState}
    (h : stateOf reg id = some s) :
    ∃ x, modelLookup reg id = some x ∧ x.load_state = s := by
  unfold stateOf at h
  rcases hl : modelLookup reg id with _ | x
  · rw [hl] at h
    exact absurd h (by simp)
  · rw [hl] at h
    exact ⟨x, rfl, by simpa using h⟩

theorem stateOf_setLoadState_of_some {reg : Registry} {id : Nat} {h : ModelHandle}
    (hl : modelLookup reg id = some h) (s : LoadState) :
    stateOf (setLoadState reg id s) id = some s := by
  unfold stateOf setLoadState
  rw [modelLookup_updateHandle reg id (fun x => { x with load_state := s }) (fun x => rfl)]
  rw [hl]
  simp [modelLookup_some_id hl]

theorem modelLookup_setLoadState_same {reg : Registry} {id : Nat} {h : ModelHandle}
    (hl : modelLookup reg id = some h) (s : LoadState) :
    modelLookup (setLoadState reg id s) id = some { h with load_state := s } := by
  unfold setLoadState
  rw [modelLookup_updateHandle reg id (fun x => { x with load_state := s }) (fun x => rfl)]
  rw [hl]
  simp [modelLookup_some_id hl]

theorem stateOf_load_begin_of_some {reg : Registry} {p : String} {i : Nat} {s : LoadState}
    (h : stateOf reg i = some s) : stateOf (load_begin reg p).1 i = some s := by
  unfold stateOf modelLookup at h ⊢
  unfold load_begin
  dsimp only
  rcases hl : reg.models.find? (fun x => x.handle_id = i) with _ | x
  · rw [hl] at h
    exact absurd h (by simp)
  · rw [find?_append_some _ _ _ hl]
    rw [hl] at h
    exact h

theorem state_change_of_eq {reg reg' : Registry} {i : Nat}
    (h : stateOf reg' i = stateOf reg i) :
    (∀ s t, stateOf reg i = some s → stateOf reg' i = some t →
       s = t ∨ legalTransition s t) ∧
    (∀ s, stateOf reg i = some s → stateOf reg' i = none → s = LoadState.Loading) := by
  constructor
  · intro s t hs ht
    rw [h, hs] at ht
    exact Or.inl (Option.some_injective _ ht)
  · intro s hs hnone
    rw [h, hs] at hnone
    exact absurd hnone (by simp)

theorem regStep_state_change (op : RegOp) (reg : Registry) (i : Nat) :
    (∀ s t, stateOf reg i = some s → stateOf (regStep op reg) i = some t →
       s = t ∨ legalTransition s t) ∧
    (∀ s, stateOf reg i = some s → stateOf (regStep op reg) i = none →
       s = LoadState.Loading) := by
  cases op with
  | loadBegin p =>
      constructor
      · intro s t hs ht
        dsimp only [regStep] at ht
        rw [stateOf_load_begin_of_some hs] at ht
        exact Or.inl (Option.some_injective _ ht)
      · intro s hs hnone
        dsimp only [regStep] at hnone
        rw [stateOf_load_begin_of_some hs] at hnone
        exact absurd hnone (by simp)
  | loadFinish id ok =>
      cases hst : stateOf reg id with
      | none =>
          have hstep : regStep (RegOp.loadFinish id ok) reg = reg := by
            unfold regStep load_finish
            dsimp only
            rw [hst]
          rw [hstep]
          exact state_change_of_eq rfl
      | some s0 =>
          cases s0 with
          | Loading =>
              obtain ⟨x, hx, hxs⟩ := lookup_of_stateOf hst
              cases ok with
              | true =>
                  have hstep : regStep (RegOp.loadFinish id true) reg =
                      setLoadState reg id LoadState.Ready := by
                    unfold regStep load_finish
                    dsimp only
                    rw [hst]
                    rfl
                  rw [hstep]
                  by_cases hi : i = id
                  · subst hi
                    constructor
                    · intro s t hs ht
                      have hs' : s = LoadState.Loading :=
                        Option.some_injective _ (hs.symm.trans hst)
                      rw [stateOf_setLoadState_of_some hx LoadState.Ready] at ht
                      have ht' : t = LoadState.Ready := (Option.some_injective _ ht).symm
                      subst hs'
                      subst ht'
                      exact Or.inr (Or.inl ⟨rfl, rfl⟩)
                    · intro s hs hnone
                      rw [stateOf_setLoadState_of_some hx LoadState.Ready] at hnone
                      exact absurd hnone (by simp)
                  · exact state_change_of_eq (stateOf_setLoadState_ne reg id LoadState.Ready i hi)
              | false =>
                  have hstep : regStep (RegOp.loadFinish id false) reg = removeHandle reg id := by
                    unfold regStep load_finish
                    dsimp only
                    rw [hst]
                    rfl
                  rw [hstep]
                  by_cases hi : i = id
                  · subst hi
                    constructor
                    · intro s t hs ht
                      have hrm : stateOf (removeHandle reg i) i = none := by
                        unfold stateOf
                        rw [modelLookup_removeHandle_same]
                        rfl
                      rw [hrm] at ht
                      exact absurd ht (by simp)
                    · intro s hs hnone
                      exact Option.some_injective _ (hs.symm.trans hst)
                  · have heq : stateOf (removeHandle reg id) i = stateOf reg i := by
                      unfold stateOf
                      rw [modelLookup_removeHandle_ne reg id i hi]
                    exact state_change_of_eq heq
          | Ready =>
              have hstep : regStep (RegOp.loadFinish id ok) reg = reg := by
                unfold regStep load_finish
                dsimp only
                rw [hst]
              rw [hstep]
              exact state_change_of_eq rfl
          | Unloading =>
              have hstep : regStep (RegOp.loadFinish id ok) reg = reg := by
                unfold regStep load_finish
                dsimp only
                rw [hst]
              rw [hstep]
              exact state_change_of_eq rfl
          | Unloaded =>
              have hstep : regStep (RegOp.loadFinish id ok) reg = reg := by
                unfold regStep load_finish
                dsimp only
                rw [hst]
              rw [hstep]
              exact state_change_of_eq rfl
  | unload id =>
      cases hl : modelLookup reg id with
      | none =>
          have hstep : regStep (RegOp.unload id) reg = reg := by
            unfold regStep core_model_unload
            dsimp only
            rw [hl]
          rw [hstep]
          exact state_change_of_eq rfl
      | some x =>
          by_cases hr : x.load_state = LoadState.Ready
          · have hstep : regStep (RegOp.unload id) reg =
                setLoadState reg id LoadState.Unloading := by
              unfold regStep core_model_unload
              dsimp only
              rw [hl]
              dsimp only
              rw [if_pos hr]
            rw [hstep]
            by_cases hi : i = id
            · subst hi
              constructor
              · intro s t hs ht
                have hs' : s = x.load_state :=
                  Option.some_injective _ (hs.symm.trans (stateOf_eq_of_lookup hl))
                rw [stateOf_setLoadState_of_some hl LoadState.Unloading] at ht
                have ht' : t = LoadState.Unloading := (Option.some_injective _ ht).symm
                subst ht'
                rw [hs', hr]
                exact Or.inr (Or.inr (Or.inl ⟨rfl, rfl⟩))
              · intro s hs hnone
                rw [stateOf_setLoadState_of_some hl LoadState.Unloading] at hnone
                exact absurd hnone (by simp)
            · exact state_change_of_eq (stateOf_setLoadState_ne reg id LoadState.Unloading i hi)
          · have hstep : regStep (RegOp.unload id) reg = reg := by
              unfold regStep core_model_unload
              dsimp only
              rw [hl]
              dsimp only
              rw [if_neg hr]
            rw [hstep]
            exact state_change_of_eq rfl
  | drainStep id =>
      cases hl : modelLookup reg id with
      | none =>
          have hstep : regStep (RegOp.drainStep id) reg = reg := by
            unfold regStep drain
            dsimp only
            rw [hl]
          rw [hstep]
          exact state_change_of_eq rfl
      | some x =>
          by_cases hc : x.load_state = LoadState.Unloading ∧ x.refcount = 0
          · have hstep : regStep (RegOp.drainStep id) reg =
                setLoadState reg id LoadState.Unloaded := by
              unfold regStep drain
              dsimp only
              rw [hl]
              dsimp only
              rw [if_pos hc]
            rw [hstep]
            by_cases hi : i = id
            · subst hi
              constructor
              · intro s t hs ht
                have hs' : s = x.load_state :=
                  Option.some_injective _ (hs.symm.trans (stateOf_eq_of_lookup hl))
                rw [stateOf_setLoadState_of_some hl LoadState.Unloaded] at ht
                have ht' : t = LoadState.Unloaded := (Option.some_injective _ ht).symm
                subst ht'
                rw [hs', hc.1]
                exact Or.inr (Or.inr (Or.inr ⟨rfl, rfl⟩))
              · intro s hs hnone
                rw [stateOf_setLoadState_of_some hl LoadState.Unloaded] at hnone
                exact absurd hnone (by simp)
            · exact state_change_of_eq (stateOf_setLoadState_ne reg id LoadState.Unloaded i hi)
          · have hstep : regStep (RegOp.drainStep id) reg = reg := by
              unfold regStep drain
              dsimp only
              rw [hl]
              dsimp only
              rw [if_neg hc]
            rw [hstep]
            exact state_change_of_eq rfl
  | acquire id => exact state_change_of_eq (stateOf_incRef reg id i)
  | release id => exact state_change_of_eq (stateOf_decRef reg id i)

/-- C2: the only load-state transitions any registry operation can produce
are Loading→Ready, Loading→removed-on-failure, Ready→Unloading and
Unloading→Unloaded; unloading an unknown handle id fails with ModelNotFound
and leaves the registry untouched; after a successful unload, a second
unload of the same id fails with ModelNotFound (already Unloading, and still
after the drain to Unloaded); and `core_infer` against a handle not in Ready
state fails with ModelNotFound with the state unchanged, indistinguishable
from an absent handle. -/
theorem model_lifecycle_contract :
    (∀ (op : RegOp) (reg : Registry) (i : Nat) (s t : LoadState),
       stateOf reg i = some s → stateOf (regStep op reg) i = some t →
       s = t ∨ legalTransition s t) ∧
    (∀ (op : RegOp) (reg : Registry) (i : Nat) (s : LoadState),
       stateOf reg i = some s → stateOf (regStep op reg) i = none →
       s = LoadState.Loading) ∧
    (∀ (reg : Registry) (id : Nat), modelLookup reg id = none →
       core_model_unload reg id = (reg, CoreErrorCode.ModelNotFound)) ∧
    (∀ (reg : Registry) (id : Nat) (reg' : Registry),
       core_model_unload reg id = (reg', CoreErrorCode.Ok) →
       (core_model_unload reg' id).2 = CoreErrorCode.ModelNotFound ∧
       (core_model_unload (drain reg' id) id).2 = CoreErrorCode.ModelNotFound) ∧
    (∀ (st : RuntimeState) (sid : String) (mid pb pt : Nat)
       (params : CoreInferenceParams) (eng : EngineRun),
       (core_session_validate st.sessions sid st.now).2 = CoreErrorCode.Ok →
       stateOf st.registry mid ≠ some LoadState.Ready →
       core_infer st sid mid pb pt params eng =
         (st, Except.error CoreErrorCode.ModelNotFound)) := by
  refine ⟨fun op reg i s t hs ht => (regStep_state_change op reg i).1 s t hs ht,
          fun op reg i s hs hn => (regStep_state_change op reg i).2 s hs hn,
          ?_, ?_, ?_⟩
  · intro reg id hnone
    unfold core_model_unload
    rw [hnone]
  · intro reg id reg' hok
    rcases hl : modelLookup reg id with _ | x
    · unfold core_model_unload at hok
      rw [hl] at hok
      have hsnd := congrArg Prod.snd hok
      simp at hsnd
    · by_cases hr : x.load_state = LoadState.Ready
      · unfold core_model_unload at hok
        rw [hl] at hok
        dsimp only at hok
        rw [if_pos hr] at hok
        have hreg' : reg' = setLoadState reg id LoadState.Unloading :=
          (congrArg Prod.fst hok).symm
        subst hreg'
        have hl' : modelLookup (setLoadState reg id LoadState.Unloading) id =
            some { x with load_state := LoadState.Unloading } :=
          modelLookup_setLoadState_same hl LoadState.Unloading
        constructor
        · unfold core_model_unload
          rw [hl']
          dsimp only
          rw [if_neg (by simp)]
        · unfold drain
          rw [hl']
          dsimp only
          by_cases hrc : x.refcount = 0
          · rw [if_pos ⟨rfl, hrc⟩]
            have hl'' : modelLookup
                (setLoadState (setLoadState reg id LoadState.Unloading) id LoadState.Unloaded)
                id = some { x with load_state := LoadState.Unloaded } :=
              modelLookup_setLoadState_same hl' LoadState.Unloaded
            unfold core_model_unload
            rw [hl'']
            dsimp only
            rw [if_neg (by simp)]
          · rw [if_neg (by intro hcon; exact hrc hcon.2)]
            unfold core_model_unload
            rw [hl']
            dsimp only
            rw [if_neg (by simp)]
      · unfold core_model_unload at hok
        rw [hl] at hok
        dsimp only at hok
        rw [if_neg hr] at hok
        have hsnd := congrArg Prod.snd hok
        simp at hsnd
  · intro st sid mid pb pt params eng hsess hnr
    unfold core_infer core_infer_with_timeout
    dsimp only
    rw [hsess]
    rw [if_neg (by simp)]
    rcases hl : modelLookup st.registry mid with _ | x
    · rfl
    · have hx : x.load_state ≠ LoadState.Ready := by
        intro hcon
        apply hnr
        rw [stateOf_eq_of_lookup hl, hcon]
      dsimp only
      rw [if_pos hx]

/-- The example registry after its handle 1 has been flipped to Unloading. -/
def exampleUnloadingRegistry : Registry :=
  { models := [{ handle_id := 1
                 path := "model.bin"
                 load_state := LoadState.Unloading
                 refcount := 0 }]
    next_id := 2 }

/-- Witness for C2: unloading an unknown id 5 fails with ModelNotFound and
leaves the example registry untouched, and a second unload of handle 1 after
a successful one fails with ModelNotFound, before and after the drain step. -/
theorem model_lifecycle_contract_witness :
    core_model_unload exampleRegistry 5 = (exampleRegistry, CoreErrorCode.ModelNotFound) ∧
    ((core_model_unload exampleUnloadingRegistry 1).2 = CoreErrorCode.ModelNotFound ∧
      (core_model_unload (drain exampleUnloadingRegistry 1) 1).2 =
        CoreErrorCode.ModelNotFound) :=
  ⟨model_lifecycle_contract.2.2.1 exampleRegistry 5 (by decide),
   model_lifecycle_contract.2.2.2.1 exampleRegistry 1 exampleUnloadingRegistry (by decide)⟩

theorem next_id_load_finish (reg : Registry) (id : Nat) (ok : Bool) :
    (load_finish reg id ok).next_id = reg.next_id := by
  unfold load_finish
  rcases hst : stateOf reg id with _ | s
  · rfl
  · cases s with
    | Loading =>
        dsimp only
        split <;> rfl
    | Ready => rfl
    | Unloading => rfl
    | Unloaded => rfl

theorem next_id_regStep (op : RegOp) (reg : Registry) :
    reg.next_id ≤ (regStep op reg).next_id := by
  cases op with
  | loadBegin p => exact Nat.le_succ _
  | loadFinish id ok =>
      unfold regStep
      dsimp only
      rw [next_id_load_finish]
  | unload id =>
      unfold regStep core_model_unload
      dsimp only
      rcases hl : modelLookup reg id with _ | x
      · exact Nat.le_refl _
      · dsimp only
        split
        · exact Nat.le_refl _
        · exact Nat.le_refl _
  | drainStep id =>
      unfold regStep drain
      dsimp only
      rcases hl : modelLookup reg id with _ | x
      · exact Nat.le_refl _
      · dsimp only
        split
        · exact Nat.le_refl _
        · exact Nat.le_refl _
  | acquire id => exact Nat.le_refl _
  | release id => exact Nat.le_refl _

theorem next_id_execOps (ops : List RegOp) (reg : Registry) :
    reg.next_id ≤ (execOps ops reg).next_id := by
  induction ops generalizing reg with
  | nil => exact Nat.le_refl _
  | cons op t ih => exact Nat.le_trans (next_id_regStep op reg) (ih (regStep op reg))

theorem core_model_load_next_id (reg : Registry) (p : String) (ok : Bool) :
    (core_model_load reg p ok).1.next_id = reg.next_id + 1 := by
  unfold core_model_load
  dsimp only
  rw [next_id_load_finish]
  rfl

theorem core_model_load_ok_id (reg : Registry) (p : String) (ok : Bool) (id : Nat)
    (h : (core_model_load reg p ok).2 = Except.ok id) : id = reg.next_id := by
  unfold core_model_load at h
  dsimp only at h
  cases ok with
  | false => exact absurd h (by simp)
  | true =>
      rw [if_pos rfl] at h
      have := h
      simp at this
      exact this.symm

/-- C3: across any sequence of registry operations in one runtime lifetime,
every successful `core_model_load` returns a handle id strictly greater than
the id of every earlier successful load (ids are never reused, even after
unload and drain), and two successive loads of the same path return two
distinct, independent handle ids — the registry does not deduplicate by
path. -/
theorem handle_ids_strictly_increasing :
    (∀ (reg : Registry) (p1 : String) (ok1 : Bool) (ops : List RegOp) (p2 : String)
       (ok2 : Bool) (id1 id2 : Nat),
       (core_model_load reg p1 ok1).2 = Except.ok id1 →
       (core_model_load (execOps ops (core_model_load reg p1 ok1).1) p2 ok2).2 =
         Except.ok id2 →
       id1 < id2) ∧
    (∀ (reg : Registry) (p : String) (id1 id2 : Nat),
       (core_model_load reg p true).2 = Except.ok id1 →
       (core_model_load (core_model_load reg p true).1 p true).2 = Except.ok id2 →
       id1 ≠ id2) := by
  have key : ∀ (reg : Registry) (p1 : String) (ok1 : Bool) (ops : List RegOp) (p2 : String)
      (ok2 : Bool) (id1 id2 : Nat),
      (core_model_load reg p1 ok1).2 = Except.ok id1 →
      (core_model_load (execOps ops (core_model_load reg p1 ok1).1) p2 ok2).2 =
        Except.ok id2 →
      id1 < id2 := by
    intro reg p1 ok1 ops p2 ok2 id1 id2 h1 h2
    have e1 : id1 = reg.next_id := core_model_load_ok_id _ _ _ _ h1
    have e2 : id2 = (execOps ops (core_model_load reg p1 ok1).1).next_id :=
      core_model_load_ok_id _ _ _ _ h2
    have m1 : (core_model_load reg p1 ok1).1.next_id = reg.next_id + 1 :=
      core_model_load_next_id reg p1 ok1
    have m2 := next_id_execOps ops (core_model_load reg p1 ok1).1
    omega
  refine ⟨key, fun reg p id1 id2 h1 h2 => ?_⟩
  have hlt := key reg p true [] p true id1 id2 h1 h2
  omega

/-- Witness for C3: loading the same path twice into the example registry
returns the distinct, strictly increasing ids 2 and 3. -/
theorem handle_ids_strictly_increasing_witness : (2 : Nat) < 3 :=
  handle_ids_strictly_increasing.1 exampleRegistry "model.bin" true [] "model.bin" true 2 3
    rfl rfl

end GGCore
